import Mathlib

/-
Shallow embedding of src/circuit.py (fairmat).

Numeric values are modelled as rationals: in the regime the program runs
in, the quantities of interest (time steps of 0.1, resistance steps of
1.0, the resistor-divider formulas) are exact, and the spec phrases its
float claims as exact equalities "within floating tolerance", which the
rational model settles exactly.

Log output (the print calls) is modelled as a Boolean "a log line was
emitted on this tick"; the text of the line carries no design weight per
the spec.
-/

namespace Fairmat

/-- Module-level constant t_max = 10.0 from circuit.py line 5. -/
def t_max : ℚ := 10

/-- Module-level constant t_error = 1e-4 from circuit.py line 6. -/
def t_error : ℚ := 1 / 10000

namespace Circuit

/-- Class constant Circuit.voltage = 10.0. -/
def voltage : ℚ := 10

/-- Class constant Circuit.r_dot = 10.0. -/
def r_dot : ℚ := 10

/-- Class constant Circuit.dt = 0.1. -/
def dt : ℚ := 1 / 10

/-- Class constant Circuit.r_l = 30.0. -/
def r_l : ℚ := 30

end Circuit

/-- The mutable state of a Circuit object: simulated time t, the two
resistances r_1 and r_2, and the pause flag halt. -/
structure CircuitState where
  t : ℚ
  r_1 : ℚ
  r_2 : ℚ
  halt : Bool
deriving DecidableEq

/-- Circuit.reset (circuit.py lines 81-85): assigns r_1 = 0.0, r_2 = 100.0,
t = 0.0 and touches nothing else (in particular not the halt flag). -/
def CircuitState.reset (s : CircuitState) : CircuitState :=
  { s with r_1 := 0, r_2 := 100, t := 0 }

/-- The state right after Circuit.__init__ (lines 17-25): reset() followed by
halt = False. -/
def CircuitState.init : CircuitState :=
  { CircuitState.reset ⟨0, 0, 0, false⟩ with halt := false }

/-- Circuit.read_voltage (lines 92-95): r_par = r_l*r_2/(r_l+r_2), returns
r_par*voltage/(r_par+r_1). The method body contains no assignment. -/
def CircuitState.read_voltage (s : CircuitState) : ℚ :=
  let r_par := Circuit.r_l * s.r_2 / (Circuit.r_l + s.r_2)
  r_par * Circuit.voltage / (r_par + s.r_1)

/-- Circuit.read_current (lines 97-99): read_voltage() / r_l. -/
def CircuitState.read_current (s : CircuitState) : ℚ :=
  s.read_voltage / Circuit.r_l

/-- The method call read_voltage() as a state transformer: it returns its
value and, containing no assignment to any field, leaves the state as is. -/
def CircuitState.read_voltage_call (s : CircuitState) : ℚ × CircuitState :=
  (s.read_voltage, s)

/-- The method call read_current() as a state transformer. -/
def CircuitState.read_current_call (s : CircuitState) : ℚ × CircuitState :=
  (s.read_current, s)

/-- The state update performed by one iteration of Circuit.counter_t
(lines 38-40): t += dt; r_1 += r_dot*dt; r_2 -= r_dot*dt. -/
def CircuitState.advance (s : CircuitState) : CircuitState :=
  { s with
    t := s.t + Circuit.dt
    r_1 := s.r_1 + Circuit.r_dot * Circuit.dt
    r_2 := s.r_2 - Circuit.r_dot * Circuit.dt }

/-- One scheduler tick of Circuit.counter_t (lines 32-40) in the pause-free
regime: if the loop guard t < t_max - t_error holds, sleep dt and perform the
update; otherwise the loop has exited and the state is final. -/
def tick (s : CircuitState) : CircuitState :=
  if s.t < t_max - t_error then s.advance else s

/-- The circuit state after n pause-free ticks of counter_t starting from the
freshly initialized state. -/
def trace (n : ℕ) : CircuitState :=
  tick^[n] CircuitState.init

/-- Circuit.start (lines 71-75) clears the pause flag before launching the
tasks: self.halt = False. -/
def CircuitState.startFlag (s : CircuitState) : CircuitState :=
  { s with halt := false }

/-- Circuit.pause (lines 77-79): self.halt = True. -/
def CircuitState.pauseFlag (s : CircuitState) : CircuitState :=
  { s with halt := true }

/-
Small-step model of the coroutine Circuit.counter_t (lines 32-40), precise
about its suspension points. The only suspension points of the coroutine are
its two sleeps, so its control positions are:
  outer    - about to evaluate the loop guard t < t_max - t_error (line 34);
  paused   - about to re-evaluate the inner guard while self.halt, having
             slept dt if it was true (lines 35-36);
  sleeping - past the halt check, suspended in the sleep of line 37; on
             resumption it performs the lines 38-40 update unconditionally;
  done     - the outer loop has exited.
The halt flag lives in the circuit state and is only written by other code
(pause/start); counter_t itself never writes it.
-/
inductive CtPc where
  | outer
  | paused
  | sleeping
  | done
deriving DecidableEq

/-- A configuration of the counter_t coroutine: its control position plus the
shared circuit state. -/
structure CtConfig where
  pc : CtPc
  c : CircuitState
deriving DecidableEq

/-- One resumption step of the counter_t coroutine from a suspension point. -/
def ctStep (s : CtConfig) : CtConfig :=
  match s.pc with
  | CtPc.outer =>
      if s.c.t < t_max - t_error then { s with pc := CtPc.paused }
      else { s with pc := CtPc.done }
  | CtPc.paused =>
      if s.c.halt then s else { s with pc := CtPc.sleeping }
  | CtPc.sleeping => { pc := CtPc.outer, c := s.c.advance }
  | CtPc.done => s

/-
Instruments. A voltmeter holds {voltage, t}, an ammeter {current, t}; for
the ohmmeters only the pair (value, timestamp) of the referenced instrument
matters, so both are modelled by one record.
-/

/-- The latest reading an instrument holds: its value and the simulated time
it was taken at (Voltmeter.voltage/t, Ammeter.current/t). -/
structure Reading where
  value : ℚ
  t : ℚ
deriving DecidableEq

/-- The mutable state of an Ohmmeter: its resistance and local timestamp. -/
structure OhmState where
  resistance : ℚ
  t : ℚ
deriving DecidableEq

/-- One loop iteration of Ohmmeter.counter_r (lines 151-159), entered with
the guard self.t < t_max - t_error true, reading the given voltmeter and
ammeter states. First self.t = max(voltmeter.t, ammeter.t); then the division
voltmeter.voltage / ammeter.current: on ZeroDivisionError the iteration is
skipped (continue) with no assignment to resistance and no log line;
otherwise resistance is assigned and a log line is emitted. The Bool records
whether the log line was emitted. -/
def ohmStep (o : OhmState) (vm am : Reading) : OhmState × Bool :=
  let o1 : OhmState := { o with t := max vm.t am.t }
  if am.value = 0 then (o1, false)
  else ({ o1 with resistance := vm.value / am.value }, true)

/-- Class constant RAOhmmeter.t_interval = 2.0 (line 168). -/
def t_interval : ℚ := 2

/-- Python dict assignment d[k] = v on a dict modelled as a list of key-value
pairs with unique keys: overwrite in place when the key is present, append
otherwise. -/
def dictInsert (k v : ℚ) (buf : List (ℚ × ℚ)) : List (ℚ × ℚ) :=
  if buf.any (fun p => p.1 = k) then
    buf.map (fun p => if p.1 = k then (k, v) else p)
  else buf ++ [(k, v)]

/-- RAOhmmeter.rolling_average (lines 175-188) at current time t: collect
every key with key + t_interval < t - t_error into to_be_removed, delete
those entries (on unique keys, deleting the collected keys is keeping
exactly the pairs that fail the test), then return the sum of the remaining
values divided by the number of remaining entries, together with the purged
buffer the method leaves behind. -/
def rolling_average (t : ℚ) (buf : List (ℚ × ℚ)) : ℚ × List (ℚ × ℚ) :=
  let kept := buf.filter (fun p => ! decide (p.1 + t_interval < t - t_error))
  (((kept.map Prod.snd).sum) / (kept.length : ℚ), kept)

/-- The mutable state of a RAOhmmeter: its readings buffer (a dict keyed by
sample timestamp), its resistance and its local timestamp. -/
structure RAState where
  readings_buffer : List (ℚ × ℚ)
  resistance : ℚ
  t : ℚ
deriving DecidableEq

/-- One loop iteration of RAOhmmeter.counter_r (lines 190-200), entered with
the guard true. First self.t = max(voltmeter.t, ammeter.t); then
self.readings_buffer[self.t] = voltmeter.voltage / ammeter.current, whose
right-hand side raises ZeroDivisionError before the insertion when the
current is zero, skipping the iteration (no insertion, no purge, no average,
no log); otherwise resistance = rolling_average() on the updated buffer and
a log line is emitted. -/
def raStep (o : RAState) (vm am : Reading) : RAState × Bool :=
  let t1 := max vm.t am.t
  if am.value = 0 then ({ o with t := t1 }, false)
  else
    let buf1 := dictInsert t1 (vm.value / am.value) o.readings_buffer
    let r := rolling_average t1 buf1
    ({ readings_buffer := r.2, resistance := r.1, t := t1 }, true)

/-
Task wiring of Circuit.bootstrap (lines 42-69) and Circuit.start (71-75).
-/

/-- The periodic tasks the coordinator can schedule. -/
inductive Task where
  | timeAdvance
  | voltSample
  | ammSample
  | ohmSample
  | raohmSample
deriving DecidableEq

/-- The task list built by Circuit.bootstrap (lines 42-69) from the presence
of the four instrument slots: counter_t always; counter_v if a voltmeter is
attached; counter_c if an ammeter is attached; the two ohmmeter variants
only under (voltmeter and ammeter), each further gated on its own slot. -/
def bootstrapTasks (vm am om ra : Bool) : List Task :=
  [Task.timeAdvance]
    ++ (if vm then [Task.voltSample] else [])
    ++ (if am then [Task.ammSample] else [])
    ++ (if vm && am then
          (if om then [Task.ohmSample] else [])
            ++ (if ra then [Task.raohmSample] else [])
        else [])

/-
Helper lemmas about the clock trace.
-/

/-- One tick never changes the sum r_1 + r_2. -/
lemma tick_sum (s : CircuitState) : (tick s).r_1 + (tick s).r_2 = s.r_1 + s.r_2 := by
  unfold tick CircuitState.advance
  split
  · simp
  · rfl

/-- One tick never changes the halt flag. -/
lemma tick_halt (s : CircuitState) : (tick s).halt = s.halt := by
  unfold tick CircuitState.advance
  split <;> simp

/-- Closed form of the pause-free trace up to the terminal tick. -/
lemma trace_closed (n : ℕ) (h : n ≤ 100) :
    trace n = ⟨(n : ℚ) / 10, (n : ℚ), 100 - (n : ℚ), false⟩ := by
  induction n with
  | zero =>
      simp [trace, CircuitState.init, CircuitState.reset]
  | succ m ih =>
      have hm : m ≤ 100 := Nat.le_of_succ_le h
      have hm99 : m ≤ 99 := Nat.lt_succ_iff.mp h
      have hmq : (m : ℚ) ≤ 99 := by exact_mod_cast hm99
      have hstep : trace (m + 1) = tick (trace m) := Function.iterate_succ_apply' tick m _
      rw [hstep, ih hm]
      have hguard : ((m : ℚ) / 10) < t_max - t_error := by
        rw [t_max, t_error]
        nlinarith
      simp only [tick, CircuitState.advance, hguard, if_pos]
      simp only [Circuit.dt, Circuit.r_dot, CircuitState.mk.injEq]
      push_cast
      exact ⟨by ring, by ring, by ring, trivial⟩

/-- The terminal state, reached after exactly 100 ticks. -/
lemma trace_100 : trace 100 = ⟨10, 100, 0, false⟩ := by
  rw [trace_closed 100 (le_refl 100)]
  norm_num

/-- The terminal state is a fixed point of the tick function. -/
lemma tick_trace_100 : tick (trace 100) = trace 100 := by
  rw [trace_100]
  unfold tick
  rw [if_neg]
  rw [t_max, t_error]
  norm_num

/-- Past the terminal tick the trace no longer moves. -/
lemma trace_stable (m : ℕ) : trace (100 + m) = trace 100 := by
  induction m with
  | zero => rfl
  | succ k ih =>
      have : trace (100 + (k + 1)) = tick (trace (100 + k)) :=
        Function.iterate_succ_apply' tick (100 + k) _
      rw [this, ih, tick_trace_100]

/-- Every state of the trace also appears within the first 100 ticks. -/
lemma trace_eq_trace_min (n : ℕ) : trace n = trace (min n 100) := by
  rcases le_or_lt n 100 with h | h
  · rw [min_eq_left h]
  · have : n = 100 + (n - 100) := by omega
    rw [min_eq_right (le_of_lt h), this, trace_stable]

/-- Along the whole trace both resistances stay nonnegative and sum to 100. -/
lemma trace_bounds (n : ℕ) :
    0 ≤ (trace n).r_1 ∧ 0 ≤ (trace n).r_2 ∧ (trace n).r_1 + (trace n).r_2 = 100 := by
  rw [trace_eq_trace_min]
  have hmin : min n 100 ≤ 100 := min_le_right n 100
  rw [trace_closed (min n 100) hmin]
  have h0 : (0 : ℚ) ≤ ((min n 100 : ℕ) : ℚ) := by positivity
  have h100 : ((min n 100 : ℕ) : ℚ) ≤ 100 := by exact_mod_cast hmin
  refine ⟨h0, by linarith, by ring⟩

/-- Along the whole trace the time stamp stays within the run window. -/
lemma trace_t_bounds (n : ℕ) : 0 ≤ (trace n).t ∧ (trace n).t ≤ t_max := by
  rw [trace_eq_trace_min]
  have hmin : min n 100 ≤ 100 := min_le_right n 100
  rw [trace_closed (min n 100) hmin, t_max]
  have h0 : (0 : ℚ) ≤ ((min n 100 : ℕ) : ℚ) := by positivity
  have h100 : ((min n 100 : ℕ) : ℚ) ≤ 100 := by exact_mod_cast hmin
  constructor
  · show (0 : ℚ) ≤ ((min n 100 : ℕ) : ℚ) / 10
    positivity
  · show ((min n 100 : ℕ) : ℚ) / 10 ≤ 10
    linarith

/-
Claim theorems.
-/

/-- C2: the invariant r_1 + r_2 = 100 holds after reset (which sets t = 0,
r_1 = 0, r_2 = 100), is preserved by every tick of counter_t, and hence
holds along the whole reachable trace, whose time stamps stay in
[0, t_max]. -/
theorem C2_sum_invariant :
    (∀ s : CircuitState,
      (s.reset).t = 0 ∧ (s.reset).r_1 = 0 ∧ (s.reset).r_2 = 100
        ∧ (s.reset).r_1 + (s.reset).r_2 = 100)
    ∧ (∀ s : CircuitState, s.r_1 + s.r_2 = 100 → (tick s).r_1 + (tick s).r_2 = 100)
    ∧ (∀ n : ℕ, (trace n).r_1 + (trace n).r_2 = 100
        ∧ 0 ≤ (trace n).t ∧ (trace n).t ≤ t_max) := by
  refine ⟨?_, ?_, ?_⟩
  · intro s
    refine ⟨rfl, rfl, rfl, ?_⟩
    show (0 : ℚ) + 100 = 100
    norm_num
  · intro s h
    rw [tick_sum]
    exact h
  · intro n
    exact ⟨(trace_bounds n).2.2, (trace_t_bounds n).1, (trace_t_bounds n).2⟩

/-- Witness for C2 at the concrete freshly initialized state. -/
theorem C2_sum_invariant_witness :
    (tick CircuitState.init).r_1 + (tick CircuitState.init).r_2 = 100 :=
  C2_sum_invariant.2.1 CircuitState.init
    (by show (0 : ℚ) + 100 = 100; norm_num)

/-- C5: read_voltage computes the resistor-divider formula
r_par*voltage/(r_par+r_1) with r_par = r_l*r_2/(r_l+r_2), read_current is
read_voltage/r_l, both calls leave the circuit state untouched, and at the
initial state the voltage reads exactly 10 and the current is the voltage
divided by 30. -/
theorem C5_read_formulas :
    (∀ s : CircuitState,
      Circuit.r_l + s.r_2 ≠ 0 →
      Circuit.r_l * s.r_2 / (Circuit.r_l + s.r_2) + s.r_1 ≠ 0 →
        (s.read_voltage
            = Circuit.r_l * s.r_2 / (Circuit.r_l + s.r_2) * Circuit.voltage
              / (Circuit.r_l * s.r_2 / (Circuit.r_l + s.r_2) + s.r_1)
          ∧ s.read_current = s.read_voltage / Circuit.r_l
          ∧ s.read_voltage_call = (s.read_voltage, s)
          ∧ s.read_current_call = (s.read_current, s)))
    ∧ CircuitState.init.read_voltage = 10
    ∧ CircuitState.init.read_current = CircuitState.init.read_voltage / 30 := by
  refine ⟨?_, ?_, ?_⟩
  · intro s h1 h2
    exact ⟨rfl, rfl, rfl, rfl⟩
  · show Circuit.r_l * (100 : ℚ) / (Circuit.r_l + 100) * Circuit.voltage
        / (Circuit.r_l * 100 / (Circuit.r_l + 100) + 0) = 10
    rw [Circuit.r_l, Circuit.voltage]
    norm_num
  · show CircuitState.init.read_voltage / Circuit.r_l
        = CircuitState.init.read_voltage / 30
    rw [Circuit.r_l]

/-- Witness for C5 at the concrete initial state. -/
theorem C5_read_formulas_witness :
    CircuitState.init.read_voltage
        = Circuit.r_l * CircuitState.init.r_2 / (Circuit.r_l + CircuitState.init.r_2)
            * Circuit.voltage
          / (Circuit.r_l * CircuitState.init.r_2 / (Circuit.r_l + CircuitState.init.r_2)
              + CircuitState.init.r_1)
      ∧ CircuitState.init.read_current = CircuitState.init.read_voltage / Circuit.r_l
      ∧ CircuitState.init.read_voltage_call = (CircuitState.init.read_voltage, CircuitState.init)
      ∧ CircuitState.init.read_current_call = (CircuitState.init.read_current, CircuitState.init) :=
  C5_read_formulas.1 CircuitState.init
    (by show (30 : ℚ) + 100 ≠ 0; norm_num)
    (by show (30 : ℚ) * 100 / (30 + 100) + 0 ≠ 0; norm_num)

/-- C6: bootstrap always schedules the time-advance task, schedules the
voltmeter (resp. ammeter) sampling task exactly when that slot is present,
schedules each ohmmeter variant exactly when its own slot and both the
voltmeter and ammeter slots are present, and start clears the pause flag. -/
theorem C6_task_wiring :
    (∀ vm am om ra : Bool,
      Task.timeAdvance ∈ bootstrapTasks vm am om ra
      ∧ (Task.voltSample ∈ bootstrapTasks vm am om ra ↔ vm = true)
      ∧ (Task.ammSample ∈ bootstrapTasks vm am om ra ↔ am = true)
      ∧ (Task.ohmSample ∈ bootstrapTasks vm am om ra
          ↔ (om = true ∧ vm = true ∧ am = true))
      ∧ (Task.raohmSample ∈ bootstrapTasks vm am om ra
          ↔ (ra = true ∧ vm = true ∧ am = true)))
    ∧ (∀ s : CircuitState, (s.startFlag).halt = false) := by
  constructor
  · decide
  · intro s
    rfl

/-- C9: along every reachable state of the clock trace, the denominators of
read_voltage (r_l + r_2 and r_par + r_1) and of read_current (r_l) are all
nonzero, so the circuit read functions never divide by zero. -/
theorem C9_no_div_by_zero_reads :
    ∀ n : ℕ,
      Circuit.r_l + (trace n).r_2 ≠ 0
      ∧ Circuit.r_l * (trace n).r_2 / (Circuit.r_l + (trace n).r_2) + (trace n).r_1 ≠ 0
      ∧ Circuit.r_l ≠ 0 := by
  intro n
  obtain ⟨h1, h2, h3⟩ := trace_bounds n
  rw [Circuit.r_l]
  set a := (trace n).r_1 with ha
  set b := (trace n).r_2 with hb
  have hbpos : (0 : ℚ) < 30 + b := by linarith
  refine ⟨ne_of_gt hbpos, ?_, by norm_num⟩
  have hpar : 0 ≤ 30 * b / (30 + b) := by positivity
  intro hzero
  have ha0 : a = 0 := le_antisymm (by linarith) h1
  have hp0 : 30 * b / (30 + b) = 0 := by linarith
  have hb0 : b = 0 := by
    rw [div_eq_zero_iff] at hp0
    rcases hp0 with h | h
    · linarith
    · exact absurd h (ne_of_gt hbpos)
  linarith

/-- C10: reset writes only t, r_1, r_2 (to 0, 0, 100) and leaves the pause
flag as it was; in particular a paused circuit stays paused across reset,
and only start clears the flag. -/
theorem C10_reset_frame :
    ∀ s : CircuitState,
      (s.reset).halt = s.halt
      ∧ (s.reset).t = 0 ∧ (s.reset).r_1 = 0 ∧ (s.reset).r_2 = 100
      ∧ ((s.pauseFlag).reset).halt = true
      ∧ (((s.reset).startFlag)).halt = false := by
  intro s
  exact ⟨rfl, rfl, rfl, rfl, rfl, rfl⟩

/-- C8: with the pause flag never set, the clock loop started from the reset
state runs exactly 100 ticks: before each of them the guard
t < t_max - t_error holds and the tick advances t by dt, the state after
tick 100 is the first one with t_max - t_error <= t, and from there the
trace never moves again. -/
theorem C8_termination :
    (∀ k : ℕ, k < 100 →
      (trace k).t < t_max - t_error ∧ (trace (k + 1)).t = (trace k).t + Circuit.dt)
    ∧ t_max - t_error ≤ (trace 100).t
    ∧ (∀ m : ℕ, trace (100 + m) = trace 100) := by
  refine ⟨?_, ?_, trace_stable⟩
  · intro k hk
    have hk100 : k ≤ 100 := le_of_lt hk
    have hk99 : k ≤ 99 := by omega
    have hkq : (k : ℚ) ≤ 99 := by exact_mod_cast hk99
    rw [trace_closed k hk100, trace_closed (k + 1) (by omega)]
    constructor
    · show (k : ℚ) / 10 < t_max - t_error
      rw [t_max, t_error]
      nlinarith
    · show ((k + 1 : ℕ) : ℚ) / 10 = (k : ℚ) / 10 + Circuit.dt
      rw [Circuit.dt]
      push_cast
      ring
  · rw [trace_100, t_max, t_error]
    show (10 : ℚ) - 1 / 10000 ≤ 10
    norm_num

/-- Witness for C8 at the concrete tick index 5. -/
theorem C8_termination_witness :
    (trace 5).t < t_max - t_error ∧ (trace 6).t = (trace 5).t + Circuit.dt :=
  C8_termination.1 5 (by decide)

/-- C3: rolling_average removes from the buffer exactly the entries whose
key satisfies key + t_interval < t - t_error, every retained entry satisfies
key + t_interval >= t - t_error, the returned value is the sum of the
retained values divided by their number, and on the spec's concrete window
(samples keyed 0, 1, 2, 3 at current t = 3 with t_interval = 2) exactly the
entries keyed 1, 2, 3 survive and are averaged. -/
theorem C3_rolling_average_spec :
    (∀ t : ℚ, ∀ buf : List (ℚ × ℚ),
      (∀ p : ℚ × ℚ,
        p ∈ (rolling_average t buf).2 ↔ p ∈ buf ∧ t - t_error ≤ p.1 + t_interval)
      ∧ (rolling_average t buf).1
          = ((rolling_average t buf).2.map Prod.snd).sum
            / (((rolling_average t buf).2.length : ℕ) : ℚ))
    ∧ rolling_average 3 [(0, 5), (1, 6), (2, 7), (3, 8)] = (7, [(1, 6), (2, 7), (3, 8)]) := by
  refine ⟨?_, ?_⟩
  · intro t buf
    constructor
    · intro p
      simp [rolling_average, List.mem_filter, not_lt]
    · rfl
  · norm_num [rolling_average, t_interval, t_error, List.filter_cons, List.filter_nil]

/-- The key just written by a dict assignment is present afterwards, carrying
the assigned value. -/
lemma mem_dictInsert_self (k v : ℚ) (buf : List (ℚ × ℚ)) :
    (k, v) ∈ dictInsert k v buf := by
  unfold dictInsert
  split
  · rename_i h
    rw [List.any_eq_true] at h
    obtain ⟨p, hp, hpk⟩ := h
    rw [List.mem_map]
    refine ⟨p, hp, ?_⟩
    rw [if_pos (of_decide_eq_true hpk)]
  · exact List.mem_append_right _ (List.mem_singleton.mpr rfl)

/-- C4: on a tick of RAOhmmeter.counter_r with nonzero ammeter current, the
entry just inserted under the current timestamp satisfies the retention
condition, survives the purge inside rolling_average, and therefore the
buffer the average is computed over is nonempty: the division by its length
is never a division by zero. -/
theorem C4_ra_average_nonempty :
    ∀ o : RAState, ∀ vm am : Reading, am.value ≠ 0 →
      (max vm.t am.t) - t_error ≤ (max vm.t am.t) + t_interval
      ∧ ((max vm.t am.t, vm.value / am.value) ∈ (raStep o vm am).1.readings_buffer)
      ∧ (raStep o vm am).1.readings_buffer ≠ []
      ∧ (((raStep o vm am).1.readings_buffer.length : ℕ) : ℚ) ≠ 0 := by
  intro o vm am h
  have hkeep : (! decide ((max vm.t am.t) + t_interval < (max vm.t am.t) - t_error)) = true := by
    rw [Bool.not_eq_true', decide_eq_false_iff_not, t_interval, t_error]
    intro hlt
    linarith
  have hmem : (max vm.t am.t, vm.value / am.value)
      ∈ (raStep o vm am).1.readings_buffer := by
    simp only [raStep, if_neg h, rolling_average]
    exact List.mem_filter.mpr ⟨mem_dictInsert_self _ _ _, hkeep⟩
  have hne : (raStep o vm am).1.readings_buffer ≠ [] := List.ne_nil_of_mem hmem
  refine ⟨?_, hmem, hne, ?_⟩
  · rw [t_interval, t_error]
    linarith
  · rw [Nat.cast_ne_zero]
    exact fun h0 => hne (List.length_eq_zero.mp h0)

/-- Witness for C4 on a concrete tick: empty buffer, voltmeter reading 10 at
time 1, ammeter reading 2 at time 1. -/
theorem C4_ra_average_nonempty_witness :
    (max (1 : ℚ) 1) - t_error ≤ (max (1 : ℚ) 1) + t_interval
    ∧ ((max (1 : ℚ) 1, (10 : ℚ) / 2)
        ∈ (raStep ⟨[], 0, 0⟩ ⟨10, 1⟩ ⟨2, 1⟩).1.readings_buffer)
    ∧ (raStep ⟨[], 0, 0⟩ ⟨10, 1⟩ ⟨2, 1⟩).1.readings_buffer ≠ []
    ∧ (((raStep ⟨[], 0, 0⟩ ⟨10, 1⟩ ⟨2, 1⟩).1.readings_buffer.length : ℕ) : ℚ) ≠ 0 :=
  C4_ra_average_nonempty ⟨[], 0, 0⟩ ⟨10, 1⟩ ⟨2, 1⟩ (by norm_num)

/-- C1 counterexample: a zero-current tick of Ohmmeter.counter_r from the
state with resistance 5 and timestamp 0, with the voltmeter at time 1 and the
ammeter reading 0 at time 1/2: the division fails and no log line is emitted,
the resistance is retained, but the timestamp moves from 0 to
max(voltmeter.t, ammeter.t) = 1, refuting that the timestamp is unchanged. -/
theorem C1_counterexample :
    (Reading.mk 0 (1/2)).value = 0
    ∧ (ohmStep ⟨5, 0⟩ ⟨7, 1⟩ ⟨0, 1/2⟩).1.resistance = 5
    ∧ (ohmStep ⟨5, 0⟩ ⟨7, 1⟩ ⟨0, 1/2⟩).2 = false
    ∧ (ohmStep ⟨5, 0⟩ ⟨7, 1⟩ ⟨0, 1/2⟩).1.t ≠ (OhmState.mk 5 0).t := by
  have hmax : max (1 : ℚ) (1/2) = 1 := max_eq_left (by norm_num)
  refine ⟨rfl, ?_, ?_, ?_⟩ <;> norm_num [ohmStep, hmax]

/-- C1 (amended): on a tick of Ohmmeter.counter_r where the ammeter current
is exactly zero, the division fails, the iteration is skipped with the
resistance retained and no log line emitted, while the timestamp — assigned
before the division is attempted — is updated to max(voltmeter.t,
ammeter.t) rather than retained. -/
theorem C1_zero_current_tick :
    ∀ o : OhmState, ∀ vm am : Reading, am.value = 0 →
      (ohmStep o vm am).1.resistance = o.resistance
      ∧ (ohmStep o vm am).2 = false
      ∧ (ohmStep o vm am).1.t = max vm.t am.t := by
  intro o vm am h
  simp [ohmStep, h]

/-- Witness for the amended C1 at a concrete zero-current tick. -/
theorem C1_zero_current_tick_witness :
    (ohmStep ⟨5, 0⟩ ⟨7, 1⟩ ⟨0, 1/2⟩).1.resistance = (OhmState.mk 5 0).resistance
    ∧ (ohmStep ⟨5, 0⟩ ⟨7, 1⟩ ⟨0, 1/2⟩).2 = false
    ∧ (ohmStep ⟨5, 0⟩ ⟨7, 1⟩ ⟨0, 1/2⟩).1.t = max (Reading.mk 7 1).t (Reading.mk 0 (1/2)).t :=
  C1_zero_current_tick ⟨5, 0⟩ ⟨7, 1⟩ ⟨0, 1/2⟩ rfl

/-- A resumption step taken while halt is set, from any control position
other than the in-flight sleep, leaves the circuit state untouched and does
not reach the in-flight sleep. -/
lemma ctStep_halted {s : CtConfig} (hh : s.c.halt = true) (hpc : s.pc ≠ CtPc.sleeping) :
    (ctStep s).c = s.c ∧ (ctStep s).pc ≠ CtPc.sleeping := by
  rcases s with ⟨pc, c⟩
  cases pc with
  | outer =>
      simp only [ctStep]
      split
      · exact ⟨rfl, by simp⟩
      · exact ⟨rfl, by simp⟩
  | paused =>
      simp only [ctStep]
      rw [if_pos hh]
      exact ⟨rfl, by simp⟩
  | sleeping => exact absurd rfl hpc
  | done => exact ⟨rfl, by simp [ctStep]⟩

/-- Iterating resumption steps while halt stays set, from any control
position other than the in-flight sleep, never changes the circuit state. -/
lemma ctStep_iter_halted (s : CtConfig) (hh : s.c.halt = true)
    (hpc : s.pc ≠ CtPc.sleeping) (n : ℕ) :
    (ctStep^[n] s).c = s.c ∧ (ctStep^[n] s).pc ≠ CtPc.sleeping := by
  induction n with
  | zero => exact ⟨rfl, hpc⟩
  | succ k ih =>
      rw [Function.iterate_succ_apply']
      have hh2 : (ctStep^[k] s).c.halt = true := by rw [ih.1]; exact hh
      have h := ctStep_halted hh2 ih.2
      exact ⟨h.1.trans ih.1, h.2⟩

/-- C7 counterexample: a configuration of counter_t that is suspended in the
sleep after the pause check (line 37) with halt already set still performs
the pending update on its next transition: from t = 0, r_1 = 0, r_2 = 100
with halt = true, one step changes t, refuting that every transition from a
halted state leaves the triple unchanged. -/
theorem C7_counterexample :
    (CtConfig.mk CtPc.sleeping ⟨0, 0, 100, true⟩).c.halt = true
    ∧ (ctStep ⟨CtPc.sleeping, ⟨0, 0, 100, true⟩⟩).c.t
        ≠ (CtConfig.mk CtPc.sleeping ⟨0, 0, 100, true⟩).c.t := by
  refine ⟨rfl, ?_⟩
  show (0 : ℚ) + Circuit.dt ≠ 0
  rw [Circuit.dt]
  norm_num

/-- C7 (amended): while halt is set, every transition of counter_t taken
from the loop head, the pause check, or the finished position leaves t, r_1
and r_2 unchanged for as long as halt remains set (counter_t itself never
clears it); only a transition from the sleep already entered between the
pause check and the update (possible when halt was set during that sleep)
performs one final update. -/
theorem C7_halted_frame :
    ∀ s : CtConfig, s.c.halt = true → s.pc ≠ CtPc.sleeping →
      ∀ n : ℕ,
        (ctStep^[n] s).c.t = s.c.t
        ∧ (ctStep^[n] s).c.r_1 = s.c.r_1
        ∧ (ctStep^[n] s).c.r_2 = s.c.r_2
        ∧ (ctStep^[n] s).c.halt = true := by
  intro s hh hpc n
  have h := (ctStep_iter_halted s hh hpc n).1
  rw [h]
  exact ⟨rfl, rfl, rfl, hh⟩

/-- Witness for the amended C7: five halted steps from the loop head of a
paused circuit at t = 0. -/
theorem C7_halted_frame_witness :
    (ctStep^[5] ⟨CtPc.outer, ⟨0, 0, 100, true⟩⟩).c.t
        = (CtConfig.mk CtPc.outer ⟨0, 0, 100, true⟩).c.t
    ∧ (ctStep^[5] ⟨CtPc.outer, ⟨0, 0, 100, true⟩⟩).c.r_1
        = (CtConfig.mk CtPc.outer ⟨0, 0, 100, true⟩).c.r_1
    ∧ (ctStep^[5] ⟨CtPc.outer, ⟨0, 0, 100, true⟩⟩).c.r_2
        = (CtConfig.mk CtPc.outer ⟨0, 0, 100, true⟩).c.r_2
    ∧ (ctStep^[5] ⟨CtPc.outer, ⟨0, 0, 100, true⟩⟩).c.halt = true :=
  C7_halted_frame ⟨CtPc.outer, ⟨0, 0, 100, true⟩⟩ rfl (by simp) 5

end Fairmat
